import Mathlib

/-!
Verification of the playback/timing engine of a MIDI-to-video renderer.

The engine's C++ sources (midi_video_output.cpp / midi-parser/midi_parser.c)
are shallowly embedded below.  C `double` values are modelled as exact
rationals (ℚ); machine integers are modelled as `Nat` with explicit masks
where byte-level behaviour matters.
-/

namespace SppVideo

/-- MIDI event type codes, from midi_parser.h (MidiEventType enum). -/
def MIDI_EVENT_NOTE_OFF : Nat := 0x80
def MIDI_EVENT_NOTE_ON : Nat := 0x90
def MIDI_EVENT_META : Nat := 0xFF
def MIDI_EVENT_SYSEX : Nat := 0xF0
def MIDI_EVENT_SYSEX_END : Nat := 0xF7
def MIDI_META_END_OF_TRACK : Nat := 0x2F
def MIDI_META_SET_TEMPO : Nat := 0x51

/-- A tempo-map entry: (tick, microseconds per quarter note).
Mirrors struct TempoChange in midi_video_output.h. -/
structure TempoChange where
  tick : Nat
  tempo : Nat
deriving DecidableEq, Repr

/-- MidiVideoOutput::TicksToSeconds (midi_video_output.cpp:925-937).
The SMPTE branch (top bit of the division set) is the simplified
implementation from the source: ticks / 1000. -/
def ticksToSeconds (ticks division tempo : Nat) : ℚ :=
  if division &&& 0x8000 ≠ 0 then
    (ticks : ℚ) / 1000
  else
    ((ticks : ℚ) / (division : ℚ)) * ((tempo : ℚ) / 1000000)

/-- The value of `x` reinterpreted as a signed 8-bit integer
(the C cast (int8_t)x, after truncation to 8 bits). -/
def toInt8 (x : Nat) : Int :=
  if x % 256 < 128 then (x % 256 : Int) else (x % 256 : Int) - 256

/-- midi_ticks_to_time (midi-parser/midi_parser.c:556-567): the parser's
tick-to-seconds helper, which does implement the SMPTE branch. -/
def midiTicksToTime (ticks division tempo : Nat) : ℚ :=
  if division &&& 0x8000 ≠ 0 then
    let framerate : Int := -(toInt8 (division >>> 8))
    let ticksPerFrame : Nat := division &&& 0xFF
    (ticks : ℚ) / ((framerate : ℚ) * (ticksPerFrame : ℚ))
  else
    ((ticks : ℚ) / (division : ℚ)) * (tempo : ℚ) / 1000000

/-- Tick-to-seconds conversion as the specification describes it
(spec section 4.2): SMPTE when the top bit is set, with
fps = -(top byte as signed 8-bit) and ticksPerFrame = low byte;
musical time otherwise.  Used only to compare against the code. -/
def spec_ticksToSeconds (ticks division tempo : Nat) : ℚ :=
  if division &&& 0x8000 ≠ 0 then
    let fps : Int := -(toInt8 (division >>> 8))
    let ticksPerFrame : Nat := division &&& 0xFF
    (ticks : ℚ) / ((fps : ℚ) * (ticksPerFrame : ℚ))
  else
    ((ticks : ℚ) / (division : ℚ)) * ((tempo : ℚ) / 1000000)

/-- The tempo-segment loop of MidiVideoOutput::CalculateElapsedTimeFromTick
(midi_video_output.cpp:894-920).  The list argument is the suffix of
tempo_changes_ not yet visited; the Nat argument is currentTick.
For the last entry nextTick is targetTick itself, and the loop always
breaks there (targetTick <= nextTick holds). -/
def calcElapsedLoop (division targetTick : Nat) :
    List TempoChange → Nat → ℚ
  | [], _ => 0
  | [tc], currentTick =>
      let segmentStart := max currentTick tc.tick
      if segmentStart < targetTick then
        ticksToSeconds (targetTick - segmentStart) division tc.tempo
      else 0
  | tc :: tc2 :: rest, currentTick =>
      let nextTick := tc2.tick
      let segmentStart := max currentTick tc.tick
      let segmentEnd := min targetTick nextTick
      let contrib :=
        if segmentStart < segmentEnd then
          ticksToSeconds (segmentEnd - segmentStart) division tc.tempo
        else 0
      let currentTick2 :=
        if segmentStart < segmentEnd then segmentEnd else currentTick
      if targetTick ≤ nextTick then contrib
      else contrib + calcElapsedLoop division targetTick (tc2 :: rest) currentTick2

/-- MidiVideoOutput::CalculateElapsedTimeFromTick
(midi_video_output.cpp:869-923).  `division` models
midi_file_->header.timeDivision (a uint16, so the <= 0 guard means = 0),
`currentTempo` models the member current_tempo_, and `tcs` models
tempo_changes_. -/
def calculateElapsedTimeFromTick (division currentTempo : Nat)
    (tcs : List TempoChange) (targetTick : Nat) : ℚ :=
  if division = 0 then 0
  else
    match tcs with
    | [] => ticksToSeconds targetTick division currentTempo
    | tc0 :: _ =>
      if 0 < tc0.tick then
        let initialTicks := min targetTick tc0.tick
        let initial := ticksToSeconds initialTicks division currentTempo
        if targetTick ≤ tc0.tick then initial
        else initial + calcElapsedLoop division targetTick tcs initialTicks
      else calcElapsedLoop division targetTick tcs 0

/-- Model of the C MidiEvent struct (midi_parser.h).  Payload buffers are
modelled as byte lists; metaData null (failed malloc) is not modelled. -/
structure MidiEvent where
  deltaTime : Nat := 0
  eventType : Nat := 0
  channel : Nat := 0
  data1 : Nat := 0
  data2 : Nat := 0
  metaType : Nat := 0
  metaLength : Nat := 0
  metaData : List Nat := []
  sysexLength : Nat := 0
  sysexData : List Nat := []
deriving DecidableEq, Repr

/-- Accumulator of the pre-scan pass of BuildTempoMapAndStats. -/
structure BuildStats where
  tempoChanges : List TempoChange
  totalNoteCount : Nat
  totalEventCount : Nat
  lastEventTick : Nat
deriving DecidableEq, Repr

/-- One iteration of the pre-scan loop body of BuildTempoMapAndStats
(midi_video_output.cpp:833-855): the pair holds the absolute tick reached
after reading the event (track_copy.currentTick) and the event itself. -/
def scanEvent (acc : BuildStats) (p : Nat × MidiEvent) : BuildStats :=
  let tick := p.1
  let ev := p.2
  let acc1 :=
    if ev.eventType = MIDI_EVENT_META ∧ ev.metaType = MIDI_META_SET_TEMPO ∧
        ev.metaLength = 3 then
      { acc with tempoChanges := acc.tempoChanges ++
          [⟨tick, ((ev.metaData.getD 0 0) <<< 16) |||
                  ((ev.metaData.getD 1 0) <<< 8) ||| ev.metaData.getD 2 0⟩] }
    else acc
  if (ev.eventType = MIDI_EVENT_NOTE_ON ∧ 0 < ev.data2) ∨
      ev.eventType = MIDI_EVENT_NOTE_OFF ∨
      (ev.eventType = MIDI_EVENT_NOTE_ON ∧ ev.data2 = 0) then
    { acc1 with
      totalEventCount := acc1.totalEventCount + 1,
      totalNoteCount :=
        if ev.eventType = MIDI_EVENT_NOTE_ON ∧ 0 < ev.data2 then
          acc1.totalNoteCount + 1
        else acc1.totalNoteCount,
      lastEventTick :=
        if acc1.lastEventTick < tick then tick else acc1.lastEventTick }
  else acc1

/-- Insertion into a tick-sorted tempo list (model of the std sort by
ascending tick at midi_video_output.cpp:858-861). -/
def insertTempoChange (x : TempoChange) : List TempoChange → List TempoChange
  | [] => [x]
  | y :: ys => if x.tick < y.tick then x :: y :: ys else y :: insertTempoChange x ys

def sortTempoChanges : List TempoChange → List TempoChange
  | [] => []
  | x :: xs => insertTempoChange x (sortTempoChanges xs)

/-- Result of BuildTempoMapAndStats: the sorted tempo map, the member
current_tempo_ it leaves behind, and the collected statistics. -/
structure BuildResult where
  tempoChanges : List TempoChange
  currentTempo : Nat
  totalNoteCount : Nat
  totalEventCount : Nat
  lastEventTick : Nat
deriving DecidableEq, Repr

/-- MidiVideoOutput::BuildTempoMapAndStats (midi_video_output.cpp:815-866):
pushes the 500000 us default at tick 0, scans every track with fresh
cursors, sorts the tempo list by tick, and resets current_tempo_ to the
front entry. -/
def buildTempoMapAndStats (tracks : List (List (Nat × MidiEvent))) : BuildResult :=
  let init : BuildStats := ⟨[⟨0, 500000⟩], 0, 0, 0⟩
  let scanned := tracks.foldl (fun acc track => track.foldl scanEvent acc) init
  let sorted := sortTempoChanges scanned.tempoChanges
  let tempo :=
    match sorted with
    | [] => 500000
    | tc :: _ => tc.tempo
  ⟨sorted, tempo, scanned.totalNoteCount, scanned.totalEventCount, scanned.lastEventTick⟩

/-- MidiVideoOutput::CalculateTotalDuration (midi_video_output.cpp:806-813):
elapsed time of the last qualifying event plus a 2 second tail. -/
def calculateTotalDuration (division : Nat) (br : BuildResult) : ℚ :=
  if br.totalEventCount = 0 then 0
  else calculateElapsedTimeFromTick division br.currentTempo br.tempoChanges
        br.lastEventTick + 2

/-- The C3 scenario document: format 1, division 480; track 0 holds
SetTempo(tick 0, 500000 us) = meta 0x51 with payload 07 A1 20; track 1
holds NoteOn(ch 0, note 60, vel 100) at tick 480 and NoteOff at tick 960. -/
def scenarioTracks : List (List (Nat × MidiEvent)) :=
  [ [ (0, { eventType := MIDI_EVENT_META, metaType := MIDI_META_SET_TEMPO,
            metaLength := 3, metaData := [0x07, 0xA1, 0x20] }) ],
    [ (480, { eventType := MIDI_EVENT_NOTE_ON, channel := 0, data1 := 60,
              data2 := 100 }),
      (960, { eventType := MIDI_EVENT_NOTE_OFF, channel := 0, data1 := 60,
              data2 := 0 }) ] ]

def scenarioBuild : BuildResult := buildTempoMapAndStats scenarioTracks

/-- The scheduler's tolerance kTimeEpsilon = 1e-6 s (midi_video_output.h:216). -/
def kTimeEpsilon : ℚ := 1 / 1000000

/-- A buffered qualifying event of one track, as held by
StreamingTrackState after LoadNextTrackEvent succeeded: the precomputed
schedule time (event_time = CalculateElapsedTimeFromTick(event_tick)),
the absolute tick, and the decoded event's note fields. -/
structure SchedEv where
  time : ℚ
  tick : Nat
  eventType : Nat
  data1 : Nat
  data2 : Nat
deriving DecidableEq, Repr

/-- Per-track streams of the remaining qualifying events.  This models
streaming_tracks_ together with pending_events_: the priority queue holds
exactly the buffered head event of every nonempty stream (at most one
live entry per track, re-pushed by LoadNextTrackEvent after each pop), so
popping the queue minimum is selecting the minimal head. -/
abbrev Tracks := List (List SchedEv)

/-- Index and head event of the track whose pending entry the priority
queue would pop next.  PendingEventCompare (midi_video_output.h:124-131)
orders by (time_seconds, tick) ascending; ties beyond that are resolved
here to the lowest track index (the C++ heap breaks such ties in an
unspecified but fixed order; both Seek and ProcessMidiEvents share it). -/
def nextTrackAux : Tracks → Nat → Option (Nat × SchedEv)
  | [], _ => none
  | [] :: rest, i => nextTrackAux rest (i + 1)
  | (ev :: _) :: rest, i =>
    match nextTrackAux rest (i + 1) with
    | none => some (i, ev)
    | some (j, ev2) =>
      if ev2.time < ev.time ∨ (ev2.time = ev.time ∧ ev2.tick < ev.tick) then
        some (j, ev2)
      else some (i, ev)

def nextTrack (tracks : Tracks) : Option (Nat × SchedEv) := nextTrackAux tracks 0

/-- Consume the buffered head event of track j (midi_free_event, has_event
:= false, then LoadNextTrackEvent refills from the cursor). -/
def dropHeadAt : Nat → Tracks → Tracks
  | _, [] => []
  | 0, t :: ts => t.tail :: ts
  | n + 1, t :: ts => t :: dropHeadAt n ts

/-- Total number of qualifying events still to be delivered. -/
def countT (tracks : Tracks) : Nat := (tracks.map List.length).sum

/-- The note-state part of the engine: active_notes_ (the 128-entry
ActiveNotesTable), the keyboard consumer state (SetKeyPressed calls),
note_press_times_ (steady-clock stamps, modelled in nanoseconds), and
the event streams. -/
structure EngineState where
  tracks : Tracks
  activeNotes : List Bool
  keyboard : List Bool
  pressTimes : List Nat
deriving DecidableEq, Repr

/-- Effect of one qualifying event on a 128-entry note table: the NoteOn
(velocity > 0) and NoteOff (or NoteOn velocity 0) cases shared by
ProcessNoteEvent and the Seek replay loop, with the 0 <= note < 128
bounds check of both. -/
def applyNoteTable (ev : SchedEv) (table : List Bool) : List Bool :=
  if ev.eventType = MIDI_EVENT_NOTE_ON ∧ 0 < ev.data2 then
    if ev.data1 < 128 then table.set ev.data1 true else table
  else if ev.eventType = MIDI_EVENT_NOTE_OFF ∨
      (ev.eventType = MIDI_EVENT_NOTE_ON ∧ ev.data2 = 0) then
    if ev.data1 < 128 then table.set ev.data1 false else table
  else table

/-- MidiVideoOutput::ProcessNoteEvent (midi_video_output.cpp:760-786):
press or release the key, update the ActiveNotesTable, stamp the press
time with the steady clock.  The blip emission is a write-only effect on
the external keyboard and is not modelled further. -/
def processNoteEvent (now : Nat) (ev : SchedEv) (e : EngineState) : EngineState :=
  if ev.eventType = MIDI_EVENT_NOTE_ON ∧ 0 < ev.data2 then
    if ev.data1 < 128 then
      { e with keyboard := e.keyboard.set ev.data1 true,
               activeNotes := e.activeNotes.set ev.data1 true,
               pressTimes := e.pressTimes.set ev.data1 now }
    else e
  else if ev.eventType = MIDI_EVENT_NOTE_OFF ∨
      (ev.eventType = MIDI_EVENT_NOTE_ON ∧ ev.data2 = 0) then
    if ev.data1 < 128 then
      { e with keyboard := e.keyboard.set ev.data1 false,
               activeNotes := e.activeNotes.set ev.data1 false }
    else e
  else e

/-- The pop/apply/refill loop of MidiVideoOutput::ProcessMidiEvents
(midi_video_output.cpp:648-679), fuel-indexed: while the earliest pending
event is at most currentTime + kTimeEpsilon, apply it and advance that
track. -/
def procLoop : Nat → ℚ → Nat → EngineState → EngineState
  | 0, _, _, e => e
  | fuel + 1, bound, now, e =>
    match nextTrack e.tracks with
    | none => e
    | some (j, ev) =>
      if ev.time ≤ bound + kTimeEpsilon then
        procLoop fuel bound now
          { processNoteEvent now ev e with tracks := dropHeadAt j e.tracks }
      else e

/-- MidiVideoOutput::ProcessMidiEvents (midi_video_output.cpp:637-680).
The loop pops at most one event per remaining event, so the total event
count is enough fuel. -/
def processMidiEvents (currentTime : ℚ) (now : Nat) (e : EngineState) : EngineState :=
  procLoop (countT e.tracks) currentTime now e

/-- The bounded replay loop of MidiVideoOutput::Seek
(midi_video_output.cpp:244-282): identical pop discipline, but the events
are folded into the local note_state table instead of driving visuals. -/
def seekLoop : Nat → ℚ → Tracks → List Bool → List Bool × Tracks
  | 0, _, tracks, noteState => (noteState, tracks)
  | fuel + 1, bound, tracks, noteState =>
    match nextTrack tracks with
    | none => (noteState, tracks)
    | some (j, ev) =>
      if ev.time ≤ bound + kTimeEpsilon then
        seekLoop fuel bound (dropHeadAt j tracks) (applyNoteTable ev noteState)
      else (noteState, tracks)

/-- The playback state machine (midi_video_output.h:46-51). -/
inductive MidiPlaybackState where
  | Stopped
  | Playing
  | Paused
  | Recording
deriving DecidableEq, Repr

/-- The orchestrator state of MidiVideoOutput relevant to playback:
`doc` models midi_file_ as the per-track streams of qualifying events
produced by the parser plus ResetStreamingState (none = not loaded). -/
structure OrchState where
  playbackState : MidiPlaybackState
  doc : Option Tracks
  engine : EngineState
  currentTime : ℚ
  totalDuration : ℚ
  currentFrame : Nat
  frameTime : ℚ
  isRecording : Bool
  frameCount : Nat
  keyPressDuration : ℚ
deriving DecidableEq, Repr

/-- MidiVideoOutput::Stop (midi_video_output.cpp:204-222): back to
Stopped, time 0, release every key, clear the ActiveNotesTable, rebuild
the streaming state. -/
def stop (s : OrchState) : OrchState :=
  { s with playbackState := MidiPlaybackState.Stopped, currentTime := 0,
           engine := { s.engine with
             keyboard := s.engine.keyboard.map (fun _ => false),
             activeNotes := s.engine.activeNotes.map (fun _ => false),
             tracks := s.doc.getD [] } }

/-- MidiVideoOutput::Play (midi_video_output.cpp:167-194): no-op without
a document or when already Playing; resume from Paused; otherwise start
fresh at frame 0 with a rebuilt streaming state. -/
def play (s : OrchState) : OrchState :=
  if s.doc.isNone then s
  else if s.playbackState = MidiPlaybackState.Playing then s
  else if s.playbackState = MidiPlaybackState.Paused then
    { s with playbackState := MidiPlaybackState.Playing }
  else
    { s with playbackState := MidiPlaybackState.Playing, currentFrame := 0,
             currentTime := 0,
             engine := { s.engine with tracks := s.doc.getD [] } }

/-- MidiVideoOutput::Pause (midi_video_output.cpp:196-202). -/
def pause (s : OrchState) : OrchState :=
  if s.playbackState = MidiPlaybackState.Playing then
    { s with playbackState := MidiPlaybackState.Paused }
  else s

/-- MidiVideoOutput::StopVideoOutput (midi_video_output.cpp:395-410),
restricted to the state fields modelled here. -/
def stopVideoOutput (s : OrchState) : OrchState :=
  if s.isRecording then
    { s with isRecording := false, playbackState := MidiPlaybackState.Stopped }
  else s

/-- MidiVideoOutput::Seek (midi_video_output.cpp:224-306): clamp the
target to [0, totalDuration], rebuild the streaming state, replay
bounded by the target into a local note table, then push that table to
the keyboard, the ActiveNotesTable and the press-time stamps in one
batch, and set the clock fields. -/
def seek (t : ℚ) (now : Nat) (s : OrchState) : OrchState :=
  match s.doc with
  | none => s
  | some doc =>
    let t2 := max 0 (min t s.totalDuration)
    let res := seekLoop (countT doc) t2 doc (List.replicate 128 false)
    { s with
      engine := { tracks := res.2, activeNotes := res.1, keyboard := res.1,
                  pressTimes := (List.range 128).map
                    (fun n => if res.1.getD n false then now
                              else s.engine.pressTimes.getD n 0) },
      currentTime := t2,
      currentFrame := (t2 / s.frameTime).floor.toNat }

/-- MidiVideoOutput::UpdateActiveNotes (midi_video_output.cpp:788-804):
wall-clock auto release.  `now` and the stored press stamps are
steady-clock readings in nanoseconds; the C++ duration_cast to
milliseconds is integer division by 1000000.  A note still active whose
measured press age exceeds key_press_duration seconds is released. -/
def updateActiveNotesE (now : Nat) (keyPressDuration : ℚ) (e : EngineState) :
    EngineState :=
  let release := fun n : Nat =>
    e.activeNotes.getD n false = true ∧
      keyPressDuration * 1000 < (((now - e.pressTimes.getD n 0) / 1000000 : Nat) : ℚ)
  { e with
    activeNotes := (List.range 128).map
      (fun n => if release n then false else e.activeNotes.getD n false),
    keyboard := (List.range 128).map
      (fun n => if release n then false else e.keyboard.getD n false) }

/-- MidiVideoOutput::Update (midi_video_output.cpp:416-480).  deltaTime
is the measured wall-clock delta of the render loop, which the virtual
clock never reads; now is the steady-clock reading used for press stamps
and auto release.  The clock advances one fixed frame, auto-stops at the
total duration, and otherwise processes events, applies the auto
release, and (while recording) captures one frame. -/
def update (deltaTime : ℚ) (now : Nat) (s : OrchState) : OrchState :=
  if s.playbackState ≠ MidiPlaybackState.Playing ∧
      s.playbackState ≠ MidiPlaybackState.Recording then s
  else if s.doc.isNone then s
  else
    let frame := s.currentFrame + 1
    let time := (frame : ℚ) * s.frameTime
    let s1 := { s with currentFrame := frame, currentTime := time }
    if s.totalDuration ≤ time then
      if s.isRecording then stopVideoOutput s1 else stop s1
    else
      let e2 := updateActiveNotesE now s.keyPressDuration
        (processMidiEvents time now s1.engine)
      let s2 := { s1 with engine := e2 }
      if s.isRecording then { s2 with frameCount := s2.frameCount + 1 } else s2

/-- K successive render-loop iterations, each with its own measured delta
and steady-clock reading. -/
def iterUpdate : Nat → (Nat → ℚ) → (Nat → Nat) → OrchState → OrchState
  | 0, _, _, s => s
  | k + 1, deltas, nows, s => update (deltas k) (nows k) (iterUpdate k deltas nows s)

/-- The engine state right after Play() from Stopped on a loaded
document: streaming state rebuilt from the document, every key and note
off (Stop cleared the tables), press stamps cleared. -/
def resetEngine (doc : Tracks) : EngineState :=
  ⟨doc, List.replicate 128 false, List.replicate 128 false, List.replicate 128 0⟩

/-- Replaying from time 0 by normal ProcessMidiEvents calls: one call per
(current time, steady-clock reading) pair. -/
def replayProcess (calls : List (ℚ × Nat)) (e : EngineState) : EngineState :=
  calls.foldl (fun acc p => processMidiEvents p.1 p.2 acc) e

/-- The spawned encoder process, modelled as the list of frame buffers
successfully written to its input pipe. -/
structure FFmpegPipe where
  writes : List (List Nat)
deriving DecidableEq, Repr

/-- MidiVideoOutput::WriteFrameToFFmpeg (midi_video_output.cpp:1314-1345):
reject when no process or the buffer is empty, reject when the length is
not width*height*4; only then write (and flush) the frame to the pipe. -/
def writeFrameToFFmpeg (process : Option FFmpegPipe) (width height : Nat)
    (frameData : List Nat) : Bool × Option FFmpegPipe :=
  match process with
  | none => (false, none)
  | some pipe =>
    if frameData.isEmpty then (false, some pipe)
    else if frameData.length ≠ width * height * 4 then (false, some pipe)
    else (true, some ⟨pipe.writes ++ [frameData]⟩)

/-- The video-output settings consumed by InitializeFFmpeg
(midi_video_output.h:54-95), restricted to the fields it reads plus
use_cbr. -/
structure VideoOutputSettings where
  output_path : String := "output_video"
  fps : Nat := 60
  width : Nat := 1920
  height : Nat := 1080
  bitrate : Nat := 8000000
  use_cbr : Bool := true
  video_codec : String := "h264"
  include_audio : Bool := false
  audio_file_path : String := ""
  audio_bitrate : Nat := 192000
deriving DecidableEq, Repr

/-- MidiVideoOutput::GetCodecSpecificSettings
(midi_video_output.cpp:1144-1231): the per-codec parameter table. -/
def getCodecSpecificSettings (codec : String) : List String :=
  if codec = "libx264" then
    ["-preset", "ultrafast", "-tune", "zerolatency", "-crf", "23", "-threads", "0"]
  else if codec = "libx265" then
    ["-preset", "ultrafast", "-tune", "zerolatency", "-crf", "28", "-threads", "0"]
  else if codec = "h264_nvenc" then
    ["-preset", "p1", "-tune", "ll", "-rc", "cbr", "-gpu", "0"]
  else if codec = "hevc_nvenc" then
    ["-preset", "p1", "-tune", "ll", "-rc", "cbr", "-gpu", "0"]
  else if codec = "h264_qsv" then
    ["-preset", "veryfast", "-look_ahead", "0", "-global_quality", "23"]
  else if codec = "hevc_qsv" then
    ["-preset", "veryfast", "-look_ahead", "0", "-global_quality", "28"]
  else if codec = "libvpx-vp9" then
    ["-deadline", "realtime", "-cpu-used", "8", "-threads", "0"]
  else if codec = "h264_amf" then
    ["-quality", "speed", "-rc", "cbr"]
  else if codec = "hevc_amf" then
    ["-quality", "speed", "-rc", "cbr"]
  else
    ["-threads", "0"]

/-- The encoder invocation built by MidiVideoOutput::InitializeFFmpeg
(midi_video_output.cpp:1242-1272), as its whitespace-separated argument
list.  The rate-control arguments -b:v, -maxrate and -bufsize are
emitted unconditionally; the use_cbr setting is never consulted. -/
def initializeFFmpegCmd (settings : VideoOutputSettings)
    (outputVideoPath : String) : List String :=
  ["ffmpeg", "-y", "-f", "rawvideo", "-pixel_format", "rgba",
    "-video_size", toString settings.width ++ "x" ++ toString settings.height,
    "-framerate", toString settings.fps,
    "-i", "pipe:0"]
  ++ (if settings.include_audio then ["-i", settings.audio_file_path] else [])
  ++ ["-c:v", settings.video_codec]
  ++ getCodecSpecificSettings settings.video_codec
  ++ ["-b:v", toString settings.bitrate,
      "-maxrate", toString settings.bitrate,
      "-bufsize", toString (settings.bitrate * 2)]
  ++ (if settings.include_audio then
        ["-c:a", "aac",
          "-b:a", toString (max 1 (settings.audio_bitrate / 1000)) ++ "k",
          "-shortest"]
      else [])
  ++ ["-pix_fmt", "yuv420p", outputVideoPath]

/-- Model of the C MidiTrack cursor (midi_parser.h:76-83): the bytes
still unread between the current position and the end of the track span,
the accumulated absolute tick, the running status, and the ended flag. -/
structure MidiTrack where
  bytes : List Nat
  currentTick : Nat
  runningStatus : Nat
  ended : Bool
deriving DecidableEq, Repr

/-- midi_read_variable_length (midi_parser.c:22-39): big-endian VLQ,
7 data bits per byte, continuation while the high bit is set.  When the
buffer runs out mid-quantity the C function returns 0 (and the consumed
bytes stay consumed), indistinguishable from a genuine zero. -/
def readVariableLength : List Nat → Nat → Nat × List Nat
  | [], _ => (0, [])
  | b :: rest, acc =>
    let byte := b % 256
    let acc2 := acc * 128 + byte % 128
    if 128 ≤ byte then readVariableLength rest acc2 else (acc2, rest)

/-- The event-body decoding of midi_read_next_event
(midi_parser.c:370-449), after the status byte has been resolved to
eventByte: meta, sysex, or channel message. -/
def decodeWithStatus (t : MidiTrack) (eventByte delta : Nat) :
    Option MidiEvent × MidiTrack :=
  let base : MidiEvent :=
    { deltaTime := delta, eventType := eventByte &&& 0xF0,
      channel := eventByte &&& 0x0F }
  if eventByte = 0xFF then
    match t.bytes with
    | [] => (none, { t with ended := true })
    | m :: rest =>
      let metaType := m % 256
      let lr := readVariableLength rest 0
      if lr.2.length < lr.1 then (none, { t with bytes := lr.2, ended := true })
      else
        (some { base with
            eventType := MIDI_EVENT_META, metaType := metaType,
            metaLength := lr.1, metaData := lr.2.take lr.1 },
          { t with
            bytes := lr.2.drop lr.1,
            ended := t.ended || (metaType == MIDI_META_END_OF_TRACK) })
  else if eventByte = 0xF0 ∨ eventByte = 0xF7 then
    let lr := readVariableLength t.bytes 0
    if lr.2.length < lr.1 then (none, { t with bytes := lr.2, ended := true })
    else
      (some { base with
          eventType := if eventByte = 0xF0 then MIDI_EVENT_SYSEX
                       else MIDI_EVENT_SYSEX_END,
          sysexLength := lr.1, sysexData := lr.2.take lr.1 },
        { t with bytes := lr.2.drop lr.1 })
  else
    if eventByte &&& 0xF0 = 0xC0 ∨ eventByte &&& 0xF0 = 0xD0 then
      match t.bytes with
      | [] => (none, { t with ended := true })
      | d1 :: rest =>
        (some { base with data1 := d1 % 256 }, { t with bytes := rest })
    else
      match t.bytes with
      | d1 :: d2 :: rest =>
        (some { base with data1 := d1 % 256, data2 := d2 % 256 },
          { t with bytes := rest })
      | _ => (none, { t with ended := true })

/-- midi_read_next_event (midi_parser.c:330-452): read the delta time,
resolve the status byte (new status or running status), then decode the
event body. -/
def midiReadNextEvent (track : MidiTrack) : Option MidiEvent × MidiTrack :=
  if track.ended then (none, track)
  else if track.bytes.isEmpty then (none, { track with ended := true })
  else
    let dr := readVariableLength track.bytes 0
    let t1 : MidiTrack :=
      { track with bytes := dr.2, currentTick := track.currentTick + dr.1 }
    match dr.2 with
    | [] => (none, { t1 with ended := true })
    | b0 :: afterStatus =>
      if 128 ≤ b0 % 256 then
        decodeWithStatus
          { t1 with bytes := afterStatus, runningStatus := b0 % 256 }
          (b0 % 256) dr.1
      else if track.runningStatus = 0 then (none, { t1 with ended := true })
      else decodeWithStatus t1 track.runningStatus dr.1

/-- A playing state with note 60 held (pressed at steady-clock time 0),
an empty event stream, and plenty of duration left. -/
def heldNoteState : OrchState :=
  { playbackState := MidiPlaybackState.Playing,
    doc := some [],
    engine := { tracks := [],
                activeNotes := (List.replicate 128 false).set 60 true,
                keyboard := (List.replicate 128 false).set 60 true,
                pressTimes := List.replicate 128 0 },
    currentTime := 0, totalDuration := 100, currentFrame := 0,
    frameTime := 1 / 60, isRecording := false, frameCount := 0,
    keyPressDuration := 1 / 10 }

/-- A loaded state used to exercise Seek: one track holding a NoteOn of
note 60 scheduled at 0 s (tick 0) and its NoteOff at 1 s (tick 960). -/
def seekDemoState : OrchState :=
  { playbackState := MidiPlaybackState.Stopped,
    doc := some [[⟨0, 0, 0x90, 60, 100⟩, ⟨1, 960, 0x80, 60, 0⟩]],
    engine := resetEngine [[⟨0, 0, 0x90, 60, 100⟩, ⟨1, 960, 0x80, 60, 0⟩]],
    currentTime := 0, totalDuration := 3, currentFrame := 0,
    frameTime := 1 / 60, isRecording := false, frameCount := 0,
    keyPressDuration := 1 / 10 }

/-- A freshly started playback state (Play from Stopped on a loaded
document with no qualifying events). -/
def freshPlayState : OrchState :=
  { playbackState := MidiPlaybackState.Playing,
    doc := some [],
    engine := resetEngine [],
    currentTime := 0, totalDuration := 100, currentFrame := 0,
    frameTime := 1 / 60, isRecording := false, frameCount := 0,
    keyPressDuration := 1 / 10 }

end SppVideo

namespace SppVideo

theorem ticksToSeconds_nonneg (ticks division tempo : Nat) :
    0 ≤ ticksToSeconds ticks division tempo := by
  unfold ticksToSeconds
  split <;> positivity

theorem ticksToSeconds_mono (division tempo : Nat) {a b : Nat} (h : a ≤ b) :
    ticksToSeconds a division tempo ≤ ticksToSeconds b division tempo := by
  have hab : (a : ℚ) ≤ (b : ℚ) := by exact_mod_cast h
  unfold ticksToSeconds
  split
  · have h1000 : (0 : ℚ) < 1000 := by norm_num
    exact (div_le_div_iff_of_pos_right h1000).mpr hab
  · rcases Nat.eq_zero_or_pos division with hd | hd
    · simp [hd]
    · have hdq : (0 : ℚ) < (division : ℚ) := by exact_mod_cast hd
      have hdiv : (a : ℚ) / division ≤ (b : ℚ) / division :=
        (div_le_div_iff_of_pos_right hdq).mpr hab
      have htp : (0 : ℚ) ≤ (tempo : ℚ) / 1000000 := by positivity
      exact mul_le_mul_of_nonneg_right hdiv htp

theorem calcElapsedLoop_nonneg (division targetTick : Nat)
    (tcs : List TempoChange) (currentTick : Nat) :
    0 ≤ calcElapsedLoop division targetTick tcs currentTick := by
  induction tcs generalizing currentTick with
  | nil => simp [calcElapsedLoop]
  | cons tc rest ih =>
    cases rest with
    | nil =>
      simp only [calcElapsedLoop]
      split
      · exact ticksToSeconds_nonneg _ _ _
      · exact le_refl 0
    | cons tc2 rest2 =>
      simp only [calcElapsedLoop]
      split
      · split
        · exact ticksToSeconds_nonneg _ _ _
        · exact le_refl 0
      · have hc : (0:ℚ) ≤ (if max currentTick tc.tick < min targetTick tc2.tick then
            ticksToSeconds (min targetTick tc2.tick - max currentTick tc.tick) division tc.tempo
          else 0) := by
          split
          · exact ticksToSeconds_nonneg _ _ _
          · exact le_refl 0
        exact add_nonneg hc (ih _)

theorem calcElapsedLoop_mono (division : Nat) {a b : Nat} (h : a ≤ b) :
    ∀ (tcs : List TempoChange) (currentTick : Nat),
      calcElapsedLoop division a tcs currentTick
        ≤ calcElapsedLoop division b tcs currentTick := by
  intro tcs
  induction tcs with
  | nil => intro cur; simp [calcElapsedLoop]
  | cons tc rest ih =>
    intro cur
    cases rest with
    | nil =>
      simp only [calcElapsedLoop]
      by_cases h1 : max cur tc.tick < a
      · rw [if_pos h1, if_pos (lt_of_lt_of_le h1 h)]
        exact ticksToSeconds_mono _ _ (Nat.sub_le_sub_right h _)
      · rw [if_neg h1]
        split
        · exact ticksToSeconds_nonneg _ _ _
        · exact le_refl 0
    | cons tc2 rest2 =>
      simp only [calcElapsedLoop]
      have hcontrib : ∀ {x y : Nat}, x ≤ y →
          (if max cur tc.tick < min x tc2.tick then
            ticksToSeconds (min x tc2.tick - max cur tc.tick) division tc.tempo
          else 0)
          ≤ (if max cur tc.tick < min y tc2.tick then
            ticksToSeconds (min y tc2.tick - max cur tc.tick) division tc.tempo
          else 0) := by
        intro x y hxy
        by_cases hx : max cur tc.tick < min x tc2.tick
        · have hy : max cur tc.tick < min y tc2.tick :=
            lt_of_lt_of_le hx (min_le_min hxy (le_refl tc2.tick))
          rw [if_pos hx, if_pos hy]
          exact ticksToSeconds_mono _ _
            (Nat.sub_le_sub_right (min_le_min hxy (le_refl tc2.tick)) _)
        · rw [if_neg hx]
          split
          · exact ticksToSeconds_nonneg _ _ _
          · exact le_refl 0
      by_cases hb : b ≤ tc2.tick
      · rw [if_pos hb, if_pos (le_trans h hb)]
        exact hcontrib h
      · by_cases ha : a ≤ tc2.tick
        · rw [if_pos ha, if_neg hb]
          refine le_trans (hcontrib h) ?_
          exact le_add_of_nonneg_right (calcElapsedLoop_nonneg _ _ _ _)
        · rw [if_neg ha, if_neg hb]
          have hta : tc2.tick ≤ a := Nat.le_of_not_lt (fun hlt => ha (Nat.le_of_lt hlt))
          have htb : tc2.tick ≤ b := le_trans hta h
          rw [min_eq_right hta, min_eq_right htb]
          exact add_le_add_left (ih _) _

/-- C2: with a fixed time division, member tempo and tempo map,
CalculateElapsedTimeFromTick is non-decreasing in the target tick. -/
theorem calculateElapsedTimeFromTick_mono (division currentTempo : Nat)
    (tcs : List TempoChange) {a b : Nat} (h : a ≤ b) :
    calculateElapsedTimeFromTick division currentTempo tcs a
      ≤ calculateElapsedTimeFromTick division currentTempo tcs b := by
  unfold calculateElapsedTimeFromTick
  by_cases hdiv : division = 0
  · simp [hdiv]
  · rw [if_neg hdiv, if_neg hdiv]
    cases tcs with
    | nil => exact ticksToSeconds_mono _ _ h
    | cons tc0 rest =>
      dsimp only
      by_cases h0 : 0 < tc0.tick
      · rw [if_pos h0, if_pos h0]
        by_cases hb : b ≤ tc0.tick
        · rw [if_pos hb, if_pos (le_trans h hb)]
          exact ticksToSeconds_mono _ _ (min_le_min h (le_refl tc0.tick))
        · by_cases ha : a ≤ tc0.tick
          · rw [if_pos ha, if_neg hb]
            refine le_trans (ticksToSeconds_mono _ _
              (min_le_min h (le_refl tc0.tick))) ?_
            exact le_add_of_nonneg_right (calcElapsedLoop_nonneg _ _ _ _)
          · rw [if_neg ha, if_neg hb]
            have hta : tc0.tick ≤ a := Nat.le_of_not_lt (fun hlt => ha (Nat.le_of_lt hlt))
            have htb : tc0.tick ≤ b := le_trans hta h
            rw [min_eq_right hta, min_eq_right htb]
            exact add_le_add_left (calcElapsedLoop_mono division h _ _) _
      · rw [if_neg h0, if_neg h0]
        exact calcElapsedLoop_mono division h _ _

/-- Witness for calculateElapsedTimeFromTick_mono at a concrete tempo
map with a change at tick 960. -/
theorem calculateElapsedTimeFromTick_mono_witness :
    (480 : Nat) ≤ 1920 ∧
    calculateElapsedTimeFromTick 480 500000 [⟨0, 500000⟩, ⟨960, 250000⟩] 480
      ≤ calculateElapsedTimeFromTick 480 500000 [⟨0, 500000⟩, ⟨960, 250000⟩] 1920 :=
  ⟨by decide,
    calculateElapsedTimeFromTick_mono 480 500000 [⟨0, 500000⟩, ⟨960, 250000⟩]
      (by decide)⟩

/-- C3 counterexample: in the scenario document (division 480, SetTempo
500000 us at tick 0, notes at ticks 480 and 960), the scheduler's event
time for tick 480 (CalculateElapsedTimeFromTick, as used by
LoadNextTrackEvent) is not the 1.0 s the claim asserts. -/
theorem scenario_times_counterexample :
    calculateElapsedTimeFromTick 480 scenarioBuild.currentTempo
      scenarioBuild.tempoChanges 480 ≠ 1 := by
  have hc : scenarioBuild.currentTempo = 500000 := by decide
  have ht : scenarioBuild.tempoChanges = [⟨0, 500000⟩, ⟨0, 500000⟩] := by decide
  have hland : (480 &&& 32768 : Nat) = 0 := by decide
  rw [hc, ht]
  norm_num [calculateElapsedTimeFromTick, calcElapsedLoop, ticksToSeconds, hland]

/-- C3 amended: with tempo 500000 us per quarter and division 480, tick 480
is one quarter note = 0.5 s and tick 960 is 1.0 s; the total duration is
1.0 s plus the 2.0 s tail = 3.0 s. -/
theorem scenario_times_amended :
    calculateElapsedTimeFromTick 480 scenarioBuild.currentTempo
        scenarioBuild.tempoChanges 480 = 1/2 ∧
    calculateElapsedTimeFromTick 480 scenarioBuild.currentTempo
        scenarioBuild.tempoChanges 960 = 1 ∧
    calculateTotalDuration 480 scenarioBuild = 3 := by
  have hc : scenarioBuild.currentTempo = 500000 := by decide
  have ht : scenarioBuild.tempoChanges = [⟨0, 500000⟩, ⟨0, 500000⟩] := by decide
  have hcount : scenarioBuild.totalEventCount = 2 := by decide
  have hlast : scenarioBuild.lastEventTick = 960 := by decide
  have hland : (480 &&& 32768 : Nat) = 0 := by decide
  refine ⟨?_, ?_, ?_⟩
  · rw [hc, ht]
    norm_num [calculateElapsedTimeFromTick, calcElapsedLoop, ticksToSeconds, hland]
  · rw [hc, ht]
    norm_num [calculateElapsedTimeFromTick, calcElapsedLoop, ticksToSeconds, hland]
  · unfold calculateTotalDuration
    rw [hc, ht, hcount, hlast]
    norm_num [calculateElapsedTimeFromTick, calcElapsedLoop, ticksToSeconds, hland]

/-- C5 counterexample: for SMPTE division 0xE250 (fps 30, 80 ticks per
frame) the engine's TicksToSeconds does not return
ticks / (fps * ticksPerFrame): at 2400 ticks it yields 2.4 s, not 1 s. -/
theorem ticksToSeconds_smpte_counterexample :
    ¬ ticksToSeconds 2400 0xE250 500000 = (2400 : ℚ) / (30 * 80) := by
  unfold ticksToSeconds
  rw [if_pos (by decide)]
  norm_num

/-- C5 amended: the parser helper midi_ticks_to_time computes exactly the
claimed conversion (SMPTE: ticks / (fps * ticksPerFrame) with fps the
negated signed high byte and ticksPerFrame the low byte; musical time:
(ticks/division) * (tempo/1000000)), while the engine's
MidiVideoOutput::TicksToSeconds replaces the SMPTE branch by the
simplified ticks / 1000 and agrees with the claim otherwise. -/
theorem ticksToSeconds_amended (ticks division tempo : Nat) :
    midiTicksToTime ticks division tempo = spec_ticksToSeconds ticks division tempo ∧
    ticksToSeconds ticks division tempo =
      (if division &&& 0x8000 ≠ 0 then (ticks : ℚ) / 1000
        else spec_ticksToSeconds ticks division tempo) := by
  constructor
  · unfold midiTicksToTime spec_ticksToSeconds
    split
    · rfl
    · ring
  · by_cases hs : division &&& 0x8000 ≠ 0
    · simp only [ticksToSeconds, if_pos hs]
    · simp only [ticksToSeconds, spec_ticksToSeconds, if_neg hs]

theorem getD_map_range (m n : Nat) (f : Nat → Bool) (hn : n < m) :
    ((List.range m).map f).getD n false = f n := by
  rw [List.getD_eq_getElem?_getD, List.getElem?_map, List.getElem?_range hn]
  rfl

/-- C9: WriteFrameToFFmpeg rejects any buffer whose length is not
width * height * 4 (the RGBA8 frame size): it reports failure and the
pipe receives nothing. -/
theorem writeFrame_rejects_bad_size (process : Option FFmpegPipe)
    (width height : Nat) (frameData : List Nat)
    (h : frameData.length ≠ width * height * 4) :
    writeFrameToFFmpeg process width height frameData = (false, process) := by
  unfold writeFrameToFFmpeg
  cases process with
  | none => rfl
  | some pipe =>
    dsimp only
    by_cases he : frameData.isEmpty
    · rw [if_pos he]
    · rw [if_neg he, if_pos h]

/-- Witness for writeFrame_rejects_bad_size: a 3-byte buffer against a
1x1 frame (4 bytes expected) is rejected with the pipe unchanged. -/
theorem writeFrame_rejects_bad_size_witness :
    ([0, 0, 0] : List Nat).length ≠ 1 * 1 * 4 ∧
      writeFrameToFFmpeg (some ⟨[]⟩) 1 1 [0, 0, 0] = (false, some ⟨[]⟩) :=
  ⟨by decide, writeFrame_rejects_bad_size (some ⟨[]⟩) 1 1 [0, 0, 0] (by decide)⟩

/-- C7 counterexample: with use_cbr = false the invocation still passes
the -maxrate argument (so VBR does not get only a single target-bitrate
argument), and it is identical to the use_cbr = true invocation. -/
theorem ffmpeg_cmd_ignores_cbr_counterexample :
    ({ use_cbr := false } : VideoOutputSettings).use_cbr = false ∧
    "-maxrate" ∈ initializeFFmpegCmd { use_cbr := false } "out.mp4" ∧
    initializeFFmpegCmd { use_cbr := false } "out.mp4" =
      initializeFFmpegCmd { use_cbr := true } "out.mp4" := by
  refine ⟨rfl, ?_, rfl⟩
  simp [initializeFFmpegCmd]

/-- C7 amended: the invocation never depends on use_cbr, and in every
case it passes -b:v together with -maxrate and -bufsize. -/
theorem ffmpeg_cmd_rate_args (settings : VideoOutputSettings) (b : Bool)
    (path : String) :
    initializeFFmpegCmd { settings with use_cbr := b } path =
        initializeFFmpegCmd settings path ∧
    "-b:v" ∈ initializeFFmpegCmd settings path ∧
    "-maxrate" ∈ initializeFFmpegCmd settings path ∧
    "-bufsize" ∈ initializeFFmpegCmd settings path := by
  refine ⟨rfl, ?_, ?_, ?_⟩ <;> simp [initializeFFmpegCmd]

/-- C10: a note still marked active whose measured wall-clock press age
(steady clock, millisecond granularity) exceeds key_press_duration
seconds is released by UpdateActiveNotes, regardless of whether any
NoteOff has been processed: the key is un-pressed and the
ActiveNotesTable entry cleared. -/
theorem autoRelease_after_duration (e : EngineState) (now : Nat)
    (keyPressDuration : ℚ) (n : Nat) (hn : n < 128)
    (hactive : e.activeNotes.getD n false = true)
    (hage : keyPressDuration * 1000 <
      (((now - e.pressTimes.getD n 0) / 1000000 : Nat) : ℚ)) :
    (updateActiveNotesE now keyPressDuration e).activeNotes.getD n false = false ∧
    (updateActiveNotesE now keyPressDuration e).keyboard.getD n false = false := by
  unfold updateActiveNotesE
  constructor <;>
  · dsimp only
    rw [getD_map_range 128 n _ hn, if_pos ⟨hactive, hage⟩]

/-- Witness for autoRelease_after_duration: note 60 pressed at
steady-clock 0 and still active is released at steady-clock 1 s with
the default 0.1 s key_press_duration. -/
theorem autoRelease_after_duration_witness :
    (60 : Nat) < 128 ∧
    heldNoteState.engine.activeNotes.getD 60 false = true ∧
    (1 / 10 : ℚ) * 1000 <
      (((1000000000 - heldNoteState.engine.pressTimes.getD 60 0) / 1000000 : Nat) : ℚ) ∧
    (updateActiveNotesE 1000000000 (1 / 10)
        heldNoteState.engine).activeNotes.getD 60 false = false :=
  ⟨by decide, by decide, by norm_num [heldNoteState],
    (autoRelease_after_duration heldNoteState.engine 1000000000 (1 / 10) 60
      (by decide) (by decide) (by norm_num [heldNoteState])).1⟩

/-- C6 amended: besides ProcessMidiEvents and Seek, the ActiveNotesTable
is also cleared by Stop and auto-released by UpdateActiveNotes inside
Update; Play, Pause and StopVideoOutput leave it unchanged. -/
theorem activeNotes_other_ops_frame (s : OrchState) :
    (play s).engine.activeNotes = s.engine.activeNotes ∧
    (pause s).engine.activeNotes = s.engine.activeNotes ∧
    (stopVideoOutput s).engine.activeNotes = s.engine.activeNotes ∧
    (stop s).engine.activeNotes = s.engine.activeNotes.map (fun _ => false) := by
  refine ⟨?_, ?_, ?_, rfl⟩
  · unfold play; split_ifs <;> rfl
  · unfold pause; split_ifs <;> rfl
  · unfold stopVideoOutput; split_ifs <;> rfl

/-- C6 counterexample: one Update call on heldNoteState changes the
ActiveNotesTable (note 60 is auto-released by UpdateActiveNotes) even
though ProcessMidiEvents leaves the engine completely unchanged there
and Seek is never called. -/
theorem activeNotes_update_mutates :
    (update 0 1000000000 heldNoteState).engine.activeNotes
        ≠ heldNoteState.engine.activeNotes ∧
    processMidiEvents (update 0 1000000000 heldNoteState).currentTime 1000000000
        heldNoteState.engine = heldNoteState.engine := by
  constructor
  · have hstep : (update 0 1000000000 heldNoteState).engine
        = updateActiveNotesE 1000000000 heldNoteState.keyPressDuration
            heldNoteState.engine := by
      simp only [update]
      rw [if_neg (by decide), if_neg (by decide), if_neg (by norm_num [heldNoteState]),
        if_neg (by decide)]
      rfl
    have hval : (update 0 1000000000 heldNoteState).engine.activeNotes.getD 60 false
        = false := by
      rw [hstep]
      exact (autoRelease_after_duration heldNoteState.engine 1000000000
        heldNoteState.keyPressDuration 60 (by decide) (by decide)
        (by norm_num [heldNoteState])).1
    intro heq
    have h60 := congrArg (fun l => l.getD 60 false) heq
    dsimp only at h60
    rw [hval] at h60
    have hold : heldNoteState.engine.activeNotes.getD 60 false = true := by decide
    rw [hold] at h60
    exact Bool.noConfusion h60
  · rfl

theorem update_clock_step (s : OrchState) (d : ℚ) (n : Nat)
    (hstate : s.playbackState = MidiPlaybackState.Playing ∨
      s.playbackState = MidiPlaybackState.Recording)
    (hdoc : s.doc.isNone = false)
    (hrun : ¬ s.totalDuration ≤ ((s.currentFrame + 1 : Nat) : ℚ) * s.frameTime) :
    (update d n s).playbackState = s.playbackState ∧
    (update d n s).doc = s.doc ∧
    (update d n s).frameTime = s.frameTime ∧
    (update d n s).totalDuration = s.totalDuration ∧
    (update d n s).isRecording = s.isRecording ∧
    (update d n s).currentFrame = s.currentFrame + 1 ∧
    (update d n s).currentTime = ((s.currentFrame + 1 : Nat) : ℚ) * s.frameTime := by
  have hA : ¬ (s.playbackState ≠ MidiPlaybackState.Playing ∧
      s.playbackState ≠ MidiPlaybackState.Recording) := by
    rcases hstate with h | h <;> simp [h]
  have hB : ¬ (s.doc.isNone = true) := by
    rw [hdoc]; exact Bool.false_ne_true
  simp only [update, if_neg hA, if_neg hB, if_neg hrun]
  split <;> exact ⟨rfl, rfl, rfl, rfl, rfl, rfl, rfl⟩

theorem iterUpdate_clock (s : OrchState) (deltas : Nat → ℚ) (nows : Nat → Nat)
    (hstate : s.playbackState = MidiPlaybackState.Playing ∨
      s.playbackState = MidiPlaybackState.Recording)
    (hdoc : s.doc.isNone = false)
    (hframe : s.currentFrame = 0) (htime : s.currentTime = 0)
    (hft : s.frameTime = 1 / 60) :
    ∀ K : Nat, (K : ℚ) * (1 / 60) < s.totalDuration →
      (iterUpdate K deltas nows s).playbackState = s.playbackState ∧
      (iterUpdate K deltas nows s).doc = s.doc ∧
      (iterUpdate K deltas nows s).frameTime = 1 / 60 ∧
      (iterUpdate K deltas nows s).totalDuration = s.totalDuration ∧
      (iterUpdate K deltas nows s).currentFrame = K ∧
      (iterUpdate K deltas nows s).currentTime = (K : ℚ) * (1 / 60) := by
  intro K
  induction K with
  | zero =>
    intro _
    refine ⟨rfl, rfl, hft, rfl, hframe, ?_⟩
    show s.currentTime = ((0 : Nat) : ℚ) * (1 / 60)
    rw [htime]
    norm_num
  | succ k ih =>
    intro hK
    have hstepK : ((k : ℚ) + 1) * (1 / 60) < s.totalDuration := by
      push_cast at hK
      linarith
    have hk : (k : ℚ) * (1 / 60) < s.totalDuration := by
      have hpos : (0 : ℚ) ≤ 1 / 60 := by norm_num
      nlinarith
    obtain ⟨h1, h2, h3, h4, h5, h6⟩ := ih hk
    have hstate2 : (iterUpdate k deltas nows s).playbackState
          = MidiPlaybackState.Playing ∨
        (iterUpdate k deltas nows s).playbackState = MidiPlaybackState.Recording := by
      rw [h1]; exact hstate
    have hdoc2 : (iterUpdate k deltas nows s).doc.isNone = false := by
      rw [h2]; exact hdoc
    have hrun : ¬ (iterUpdate k deltas nows s).totalDuration ≤
        (((iterUpdate k deltas nows s).currentFrame + 1 : Nat) : ℚ) *
          (iterUpdate k deltas nows s).frameTime := by
      rw [h4, h5, h3]
      intro hle
      push_cast at hle
      linarith
    obtain ⟨g1, g2, g3, g4, g5, g6, g7⟩ :=
      update_clock_step (iterUpdate k deltas nows s) (deltas k) (nows k)
        hstate2 hdoc2 hrun
    refine ⟨g1.trans h1, g2.trans h2, g3.trans h3, g4.trans h4, ?_, ?_⟩
    · show (update (deltas k) (nows k) (iterUpdate k deltas nows s)).currentFrame
        = k + 1
      rw [g6, h5]
    · have hcast : ((k + 1 : Nat) : ℚ) = (k : ℚ) + 1 := by push_cast; ring
      rw [hcast]
      show (update (deltas k) (nows k) (iterUpdate k deltas nows s)).currentTime
        = ((k : ℚ) + 1) * (1 / 60)
      rw [g7, h5, h3]
      push_cast
      ring

/-- C4: from a freshly started playback (frame 0, time 0, Playing or
Recording, document loaded, 1/60 s frame step), K Update calls with
arbitrary measured delta arguments and steady-clock readings leave
currentTime at exactly K * (1/60), as long as the auto-stop threshold
K/60 has not reached totalDuration. -/
theorem update_fixed_step_time (s : OrchState) (K : Nat)
    (deltas : Nat → ℚ) (nows : Nat → Nat)
    (hstate : s.playbackState = MidiPlaybackState.Playing ∨
      s.playbackState = MidiPlaybackState.Recording)
    (hdoc : s.doc.isNone = false)
    (hframe : s.currentFrame = 0) (htime : s.currentTime = 0)
    (hft : s.frameTime = 1 / 60)
    (hK : (K : ℚ) * (1 / 60) < s.totalDuration) :
    (iterUpdate K deltas nows s).currentTime = (K : ℚ) * (1 / 60) :=
  (iterUpdate_clock s deltas nows hstate hdoc hframe htime hft K hK).2.2.2.2.2

/-- Witness for update_fixed_step_time: three Update calls with delta 7
on a fresh playback leave currentTime at exactly 3/60. -/
theorem update_fixed_step_time_witness :
    (freshPlayState.playbackState = MidiPlaybackState.Playing ∨
      freshPlayState.playbackState = MidiPlaybackState.Recording) ∧
    freshPlayState.doc.isNone = false ∧
    freshPlayState.currentFrame = 0 ∧
    freshPlayState.currentTime = 0 ∧
    freshPlayState.frameTime = 1 / 60 ∧
    ((3 : Nat) : ℚ) * (1 / 60) < freshPlayState.totalDuration ∧
    (iterUpdate 3 (fun _ => 7) (fun _ => 0) freshPlayState).currentTime
      = ((3 : Nat) : ℚ) * (1 / 60) :=
  ⟨Or.inl rfl, rfl, rfl, rfl, rfl, by norm_num [freshPlayState],
    update_fixed_step_time freshPlayState 3 (fun _ => 7) (fun _ => 0)
      (Or.inl rfl) rfl rfl rfl rfl (by norm_num [freshPlayState])⟩

theorem decodeWithStatus_none_ends (t : MidiTrack) (eventByte delta : Nat)
    (h : (decodeWithStatus t eventByte delta).1 = none) :
    (decodeWithStatus t eventByte delta).2.ended = true := by
  unfold decodeWithStatus at h ⊢
  by_cases hm : eventByte = 0xFF
  · rw [if_pos hm] at h ⊢
    cases hb : t.bytes with
    | nil => rfl
    | cons m rest =>
      rw [hb] at h
      dsimp only at h ⊢
      by_cases hlen :
          (readVariableLength rest 0).2.length < (readVariableLength rest 0).1
      · rw [if_pos hlen]
      · rw [if_neg hlen] at h
        exact absurd h (by simp)
  · rw [if_neg hm] at h ⊢
    by_cases hsx : eventByte = 0xF0 ∨ eventByte = 0xF7
    · rw [if_pos hsx] at h ⊢
      dsimp only at h ⊢
      by_cases hlen : (readVariableLength t.bytes 0).2.length
          < (readVariableLength t.bytes 0).1
      · rw [if_pos hlen]
      · rw [if_neg hlen] at h
        exact absurd h (by simp)
    · rw [if_neg hsx] at h ⊢
      by_cases hcd : eventByte &&& 0xF0 = 0xC0 ∨ eventByte &&& 0xF0 = 0xD0
      · rw [if_pos hcd] at h ⊢
        cases hb : t.bytes with
        | nil => rfl
        | cons d1 rest =>
          rw [hb] at h
          exact absurd h (by simp)
      · rw [if_neg hcd] at h ⊢
        cases hb : t.bytes with
        | nil => rfl
        | cons d1 rest =>
          cases hr : rest with
          | nil => rfl
          | cons d2 rest2 =>
            rw [hb, hr] at h
            exact absurd h (by simp)

/-- C8 amended: whenever the per-event decoder returns no event, it has
marked that track ended; no global load error is involved (the decoder
acts on its own cursor only, so other tracks are untouched).  However, a
decode step that exhausts the remaining bytes inside a variable-length
quantity (see truncated_vlq_counterexample) silently yields length 0 and
can still return a zero-length meta or sysex event without ending the
track; the track then ends on the next read. -/
theorem midiReadNextEvent_none_ends (track : MidiTrack)
    (h : (midiReadNextEvent track).1 = none) :
    (midiReadNextEvent track).2.ended = true := by
  unfold midiReadNextEvent at h ⊢
  by_cases he : track.ended = true
  · rw [if_pos he] at h ⊢
    exact he
  · rw [if_neg he] at h ⊢
    by_cases hb : track.bytes.isEmpty
    · rw [if_pos hb]
    · rw [if_neg hb] at h ⊢
      dsimp only at h ⊢
      cases hd : (readVariableLength track.bytes 0).2 with
      | nil => rfl
      | cons b0 afterStatus =>
        rw [hd] at h
        dsimp only at h ⊢
        by_cases hs : 128 ≤ b0 % 256
        · rw [if_pos hs] at h ⊢
          exact decodeWithStatus_none_ends _ _ _ h
        · rw [if_neg hs] at h ⊢
          by_cases hr : track.runningStatus = 0
          · rw [if_pos hr]
          · rw [if_neg hr] at h ⊢
            exact decodeWithStatus_none_ends _ _ _ h

/-- Witness for midiReadNextEvent_none_ends: a NoteOn status with only
one data byte left (two needed) yields no event and the ended cursor. -/
theorem midiReadNextEvent_none_ends_witness :
    (midiReadNextEvent ⟨[0x00, 0x90, 0x3C], 0, 0, false⟩).1 = none ∧
    (midiReadNextEvent ⟨[0x00, 0x90, 0x3C], 0, 0, false⟩).2.ended = true :=
  ⟨by decide, midiReadNextEvent_none_ends ⟨[0x00, 0x90, 0x3C], 0, 0, false⟩ (by decide)⟩

/-- C8 counterexample: a SetTempo meta event whose length field is a
variable-length quantity truncated by the end of the track (final byte
0x81 has its continuation bit set).  The length read needs more bytes
than remain, yet the decoder returns a zero-length meta event and does
NOT mark the track ended. -/
theorem truncated_vlq_counterexample :
    (midiReadNextEvent ⟨[0x00, 0xFF, 0x51, 0x81], 0, 0, false⟩).1
        = some { deltaTime := 0, eventType := MIDI_EVENT_META, channel := 0x0F,
                 metaType := MIDI_META_SET_TEMPO, metaLength := 0,
                 metaData := [] } ∧
    (midiReadNextEvent ⟨[0x00, 0xFF, 0x51, 0x81], 0, 0, false⟩).2.ended = false := by
  constructor <;> decide

theorem nextTrackAux_spec : ∀ (ts : Tracks) (i j : Nat) (ev : SchedEv),
    nextTrackAux ts i = some (j, ev) →
    ∃ k tl, j = i + k ∧ ts[k]? = some (ev :: tl) := by
  intro ts
  induction ts with
  | nil =>
    intro i j ev h
    exact absurd h (by simp [nextTrackAux])
  | cons t rest ih =>
    intro i j ev h
    cases t with
    | nil =>
      rw [show nextTrackAux ([] :: rest) i = nextTrackAux rest (i + 1) from rfl] at h
      obtain ⟨k, tl, hj, hk⟩ := ih (i + 1) j ev h
      exact ⟨k + 1, tl, by omega, by simpa using hk⟩
    | cons ev0 t0 =>
      rw [show nextTrackAux ((ev0 :: t0) :: rest) i
          = (match nextTrackAux rest (i + 1) with
            | none => some (i, ev0)
            | some (j2, ev2) =>
              if ev2.time < ev0.time ∨ (ev2.time = ev0.time ∧ ev2.tick < ev0.tick)
              then some (j2, ev2) else some (i, ev0)) from rfl] at h
      cases hnext : nextTrackAux rest (i + 1) with
      | none =>
        rw [hnext] at h
        simp only [Option.some.injEq, Prod.mk.injEq] at h
        obtain ⟨hj, hev⟩ := h
        exact ⟨0, t0, by omega, by simp [hev]⟩
      | some je =>
        obtain ⟨j2, ev2⟩ := je
        rw [hnext] at h
        dsimp only at h
        by_cases hcmp : ev2.time < ev0.time ∨ (ev2.time = ev0.time ∧ ev2.tick < ev0.tick)
        · rw [if_pos hcmp] at h
          simp only [Option.some.injEq, Prod.mk.injEq] at h
          obtain ⟨hj, hev⟩ := h
          obtain ⟨k, tl, hk1, hk2⟩ := ih (i + 1) j2 ev2 hnext
          refine ⟨k + 1, tl, by omega, ?_⟩
          rw [← hev]
          simpa using hk2
        · rw [if_neg hcmp] at h
          simp only [Option.some.injEq, Prod.mk.injEq] at h
          obtain ⟨hj, hev⟩ := h
          exact ⟨0, t0, by omega, by simp [hev]⟩

theorem nextTrack_spec (ts : Tracks) (j : Nat) (ev : SchedEv)
    (h : nextTrack ts = some (j, ev)) : ∃ tl, ts[j]? = some (ev :: tl) := by
  obtain ⟨k, tl, hk1, hk2⟩ := nextTrackAux_spec ts 0 j ev h
  exact ⟨tl, by rwa [show j = k from by omega]⟩

theorem countT_dropHeadAt : ∀ (ts : Tracks) (k : Nat) (ev : SchedEv)
    (tl : List SchedEv), ts[k]? = some (ev :: tl) →
    countT (dropHeadAt k ts) + 1 = countT ts := by
  intro ts
  induction ts with
  | nil =>
    intro k ev tl h
    simp at h
  | cons t rest ih =>
    intro k ev tl h
    cases k with
    | zero =>
      simp only [List.getElem?_cons_zero, Option.some.injEq] at h
      subst h
      simp [dropHeadAt, countT]
      omega
    | succ k =>
      simp only [List.getElem?_cons_succ] at h
      have hrec := ih k ev tl h
      simp only [dropHeadAt, countT, List.map_cons, List.sum_cons] at hrec ⊢
      omega

theorem procLoop_none (b : ℚ) (n : Nat) (e : EngineState)
    (h : nextTrack e.tracks = none) : ∀ f, procLoop f b n e = e := by
  intro f
  cases f with
  | zero => rfl
  | succ f =>
    simp only [procLoop]
    rw [h]

theorem procLoop_stop (b : ℚ) (n : Nat) (e : EngineState) (j : Nat) (ev : SchedEv)
    (h : nextTrack e.tracks = some (j, ev)) (hgt : ¬ ev.time ≤ b + kTimeEpsilon) :
    ∀ f, procLoop f b n e = e := by
  intro f
  cases f with
  | zero => rfl
  | succ f =>
    simp only [procLoop]
    rw [h]
    dsimp only
    rw [if_neg hgt]

theorem procLoop_step (f : Nat) (b : ℚ) (n : Nat) (e : EngineState) (j : Nat)
    (ev : SchedEv) (h : nextTrack e.tracks = some (j, ev))
    (hle : ev.time ≤ b + kTimeEpsilon) :
    procLoop (f + 1) b n e
      = procLoop f b n { processNoteEvent n ev e with tracks := dropHeadAt j e.tracks } := by
  simp only [procLoop]
  rw [h]
  dsimp only
  rw [if_pos hle]

theorem processNoteEvent_activeNotes (now : Nat) (ev : SchedEv) (e : EngineState) :
    (processNoteEvent now ev e).activeNotes = applyNoteTable ev e.activeNotes := by
  unfold processNoteEvent applyNoteTable
  split_ifs <;> rfl

theorem procLoop_fuel_ge (b : ℚ) (n : Nat) :
    ∀ (f : Nat) (e : EngineState), countT e.tracks ≤ f →
      procLoop f b n e = processMidiEvents b n e := by
  intro f
  induction f with
  | zero =>
    intro e hc
    have h0 : countT e.tracks = 0 := Nat.le_zero.mp hc
    unfold processMidiEvents
    rw [h0]
  | succ f ih =>
    intro e hc
    unfold processMidiEvents
    cases hnext : nextTrack e.tracks with
    | none => rw [procLoop_none b n e hnext, procLoop_none b n e hnext]
    | some je =>
      obtain ⟨j, ev⟩ := je
      by_cases hle : ev.time ≤ b + kTimeEpsilon
      · obtain ⟨tl, hget⟩ := nextTrack_spec _ _ _ hnext
        have hcount := countT_dropHeadAt _ _ _ _ hget
        rw [procLoop_step f b n e j ev hnext hle]
        have h2 : countT (dropHeadAt j e.tracks) ≤ f := by omega
        rw [ih { processNoteEvent n ev e with tracks := dropHeadAt j e.tracks } h2]
        rw [← hcount, procLoop_step _ b n e j ev hnext hle]
        rfl
      · rw [procLoop_stop b n e j ev hnext hle, procLoop_stop b n e j ev hnext hle]

theorem procLoop_proj (b : ℚ) :
    ∀ (f : Nat) (n1 n2 : Nat) (e1 e2 : EngineState),
      e1.tracks = e2.tracks → e1.activeNotes = e2.activeNotes →
      (procLoop f b n1 e1).tracks = (procLoop f b n2 e2).tracks ∧
      (procLoop f b n1 e1).activeNotes = (procLoop f b n2 e2).activeNotes := by
  intro f
  induction f with
  | zero =>
    intro n1 n2 e1 e2 ht ha
    exact ⟨ht, ha⟩
  | succ f ih =>
    intro n1 n2 e1 e2 ht ha
    simp only [procLoop]
    rw [ht]
    cases hnext : nextTrack e2.tracks with
    | none => exact ⟨ht, ha⟩
    | some je =>
      obtain ⟨j, ev⟩ := je
      dsimp only
      by_cases hle : ev.time ≤ b + kTimeEpsilon
      · rw [if_pos hle, if_pos hle]
        refine ih n1 n2 _ _ rfl ?_
        show (processNoteEvent n1 ev e1).activeNotes
          = (processNoteEvent n2 ev e2).activeNotes
        rw [processNoteEvent_activeNotes, processNoteEvent_activeNotes, ha]
      · rw [if_neg hle, if_neg hle]
        exact ⟨ht, ha⟩

theorem processMidiEvents_absorb (b1 b2 : ℚ) (hb : b1 ≤ b2) :
    ∀ (c : Nat) (e : EngineState), countT e.tracks ≤ c → ∀ (n1 n2 : Nat),
      (processMidiEvents b2 n2 (processMidiEvents b1 n1 e)).tracks
          = (processMidiEvents b2 n2 e).tracks ∧
      (processMidiEvents b2 n2 (processMidiEvents b1 n1 e)).activeNotes
          = (processMidiEvents b2 n2 e).activeNotes := by
  intro c
  induction c with
  | zero =>
    intro e hc n1 n2
    have h1 : processMidiEvents b1 n1 e = e := by
      unfold processMidiEvents
      rw [Nat.le_zero.mp hc]
      rfl
    rw [h1]
    exact ⟨rfl, rfl⟩
  | succ c ih =>
    intro e hc n1 n2
    cases hnext : nextTrack e.tracks with
    | none =>
      have h1 : processMidiEvents b1 n1 e = e := procLoop_none b1 n1 e hnext _
      rw [h1]
      exact ⟨rfl, rfl⟩
    | some je =>
      obtain ⟨j, ev⟩ := je
      by_cases hle1 : ev.time ≤ b1 + kTimeEpsilon
      · have hle2 : ev.time ≤ b2 + kTimeEpsilon := by
          refine le_trans hle1 ?_
          linarith
        obtain ⟨tl, hget⟩ := nextTrack_spec _ _ _ hnext
        have hcount := countT_dropHeadAt _ _ _ _ hget
        have hinner : processMidiEvents b1 n1 e
            = processMidiEvents b1 n1
                { processNoteEvent n1 ev e with tracks := dropHeadAt j e.tracks } := by
          show procLoop (countT e.tracks) b1 n1 e = _
          rw [← hcount, procLoop_step _ b1 n1 e j ev hnext hle1]
          rfl
        have houter : processMidiEvents b2 n2 e
            = processMidiEvents b2 n2
                { processNoteEvent n2 ev e with tracks := dropHeadAt j e.tracks } := by
          show procLoop (countT e.tracks) b2 n2 e = _
          rw [← hcount, procLoop_step _ b2 n2 e j ev hnext hle2]
          rfl
        have hc1 : countT (dropHeadAt j e.tracks) ≤ c := by omega
        have hih := ih
          { processNoteEvent n1 ev e with tracks := dropHeadAt j e.tracks } hc1 n1 n2
        have hproj := procLoop_proj b2 (countT (dropHeadAt j e.tracks)) n2 n2
          { processNoteEvent n1 ev e with tracks := dropHeadAt j e.tracks }
          { processNoteEvent n2 ev e with tracks := dropHeadAt j e.tracks }
          rfl
          (by
            show (processNoteEvent n1 ev e).activeNotes
              = (processNoteEvent n2 ev e).activeNotes
            rw [processNoteEvent_activeNotes, processNoteEvent_activeNotes])
        rw [hinner, houter]
        exact ⟨hih.1.trans hproj.1, hih.2.trans hproj.2⟩
      · have h1 : processMidiEvents b1 n1 e = e :=
          procLoop_stop b1 n1 e j ev hnext hle1 _
        rw [h1]
        exact ⟨rfl, rfl⟩

theorem replayProcess_eq (t : ℚ) (n : Nat) :
    ∀ (l : List (ℚ × Nat)) (e : EngineState), l ≠ [] →
      (l.map Prod.fst).Sorted (· ≤ ·) →
      (l.map Prod.fst).getLast? = some t →
      (replayProcess l e).tracks = (processMidiEvents t n e).tracks ∧
      (replayProcess l e).activeNotes = (processMidiEvents t n e).activeNotes := by
  intro l
  induction l with
  | nil =>
    intro e hne
    exact absurd rfl hne
  | cons p rest ih =>
    intro e hne hsort hlast
    cases rest with
    | nil =>
      simp only [List.map_cons, List.map_nil, List.getLast?_singleton,
        Option.some.injEq] at hlast
      have hone : replayProcess [p] e = processMidiEvents p.1 p.2 e := rfl
      rw [hone, hlast]
      exact procLoop_proj t (countT e.tracks) p.2 n e e rfl rfl
    | cons q rest2 =>
      simp only [List.map_cons, List.getLast?_cons_cons] at hlast hsort ⊢
      obtain ⟨hall, hsort2⟩ := List.sorted_cons.mp (by
        show List.Sorted (· ≤ ·) (p.1 :: q.1 :: rest2.map Prod.fst)
        simpa using hsort)
      have hne2 : (q.1 :: rest2.map Prod.fst) ≠ [] := List.cons_ne_nil _ _
      have hgl : (q.1 :: rest2.map Prod.fst).getLast hne2 = t := by
        have h1 := List.getLast?_eq_getLast_of_ne_nil hne2
        rw [h1] at hlast
        exact Option.some.inj hlast
      have hmem : t ∈ q.1 :: rest2.map Prod.fst := hgl ▸ List.getLast_mem hne2
      have hple : p.1 ≤ t := hall t hmem
      have hstep : replayProcess (p :: q :: rest2) e
          = replayProcess (q :: rest2) (processMidiEvents p.1 p.2 e) := rfl
      rw [hstep]
      have hih := ih (processMidiEvents p.1 p.2 e) (List.cons_ne_nil _ _)
        (by simpa using hsort2) (by simpa using hlast)
      have habs := processMidiEvents_absorb p.1 t hple (countT e.tracks) e
        (le_refl _) p.2 n
      exact ⟨hih.1.trans habs.1, hih.2.trans habs.2⟩

theorem seekLoop_agrees (b : ℚ) (n : Nat) :
    ∀ (f : Nat) (tracks : Tracks) (ns : List Bool) (e : EngineState),
      e.tracks = tracks → e.activeNotes = ns →
      (seekLoop f b tracks ns).1 = (procLoop f b n e).activeNotes ∧
      (seekLoop f b tracks ns).2 = (procLoop f b n e).tracks := by
  intro f
  induction f with
  | zero =>
    intro tracks ns e ht ha
    exact ⟨ha.symm, ht.symm⟩
  | succ f ih =>
    intro tracks ns e ht ha
    simp only [seekLoop, procLoop]
    rw [ht]
    cases hnext : nextTrack tracks with
    | none => exact ⟨ha.symm, ht.symm⟩
    | some je =>
      obtain ⟨j, ev⟩ := je
      dsimp only
      by_cases hle : ev.time ≤ b + kTimeEpsilon
      · rw [if_pos hle, if_pos hle]
        refine ih (dropHeadAt j tracks) (applyNoteTable ev ns) _ rfl ?_
        show (processNoteEvent n ev e).activeNotes = applyNoteTable ev ns
        rw [processNoteEvent_activeNotes, ha]
      · rw [if_neg hle, if_neg hle]
        exact ⟨ha.symm, ht.symm⟩

/-- C1: for a loaded document and any seek target t in
[0, totalDuration], Seek(t) leaves the ActiveNotesTable in exactly the
state produced by resetting the engine (playback from time 0) and
replaying with ProcessMidiEvents at any nondecreasing sequence of
current times whose last entry is t, with arbitrary steady-clock
readings at each call. -/
theorem seek_matches_replay (s : OrchState) (doc : Tracks) (t : ℚ)
    (l : List (ℚ × Nat)) (now : Nat)
    (hdoc : s.doc = some doc) (h0 : 0 ≤ t) (h1 : t ≤ s.totalDuration)
    (hne : l ≠ [])
    (hsort : (l.map Prod.fst).Sorted (· ≤ ·))
    (hlast : (l.map Prod.fst).getLast? = some t) :
    (seek t now s).engine.activeNotes
      = (replayProcess l (resetEngine doc)).activeNotes := by
  have hclamp : max 0 (min t s.totalDuration) = t := by
    rw [min_eq_left h1, max_eq_right h0]
  have hseek : (seek t now s).engine.activeNotes
      = (seekLoop (countT doc) t doc (List.replicate 128 false)).1 := by
    unfold seek
    rw [hdoc]
    dsimp only
    rw [hclamp]
  rw [hseek]
  have hagree := seekLoop_agrees t now (countT doc) doc (List.replicate 128 false)
    (resetEngine doc) rfl rfl
  rw [hagree.1]
  have hrep := replayProcess_eq t now l (resetEngine doc) hne hsort hlast
  rw [hrep.2]
  rfl

/-- Witness for seek_matches_replay: seeking to 0.5 s in the demo
document reproduces the table of a replay via ProcessMidiEvents calls at
times 0 and 0.5. -/
theorem seek_matches_replay_witness :
    seekDemoState.doc = some [[⟨0, 0, 0x90, 60, 100⟩, ⟨1, 960, 0x80, 60, 0⟩]] ∧
    (0 : ℚ) ≤ 1 / 2 ∧
    (1 / 2 : ℚ) ≤ seekDemoState.totalDuration ∧
    ([((0 : ℚ), (0 : Nat)), (1 / 2, 5)] ≠ []) ∧
    (([((0 : ℚ), (0 : Nat)), (1 / 2, 5)].map Prod.fst).Sorted (· ≤ ·)) ∧
    (([((0 : ℚ), (0 : Nat)), (1 / 2, 5)].map Prod.fst).getLast? = some (1 / 2)) ∧
    (seek (1 / 2) 7 seekDemoState).engine.activeNotes
      = (replayProcess [((0 : ℚ), (0 : Nat)), (1 / 2, 5)]
          (resetEngine [[⟨0, 0, 0x90, 60, 100⟩, ⟨1, 960, 0x80, 60, 0⟩]])).activeNotes :=
  ⟨rfl, by norm_num, by norm_num [seekDemoState], List.cons_ne_nil _ _,
    by norm_num [List.sorted_cons], rfl,
    seek_matches_replay seekDemoState _ (1 / 2) _ 7 rfl (by norm_num)
      (by norm_num [seekDemoState]) (List.cons_ne_nil _ _)
      (by norm_num [List.sorted_cons]) rfl⟩

end SppVideo
